import Mathlib

/-!
Verification of the a41_eth_exit_explorer server against its specification.

The development shallowly embeds the JavaScript source:

* JavaScript strings are modelled as lists of UTF-16 code units
  (`JSString := List Nat`); `trim`, `toLowerCase` (restricted to the ASCII
  letter range, which covers all key and status strings the system handles)
  and `startsWith` are embedded as `jsTrim`, `jsToLower`, `startsWithCodes`.
* The SQLite tables `validators`, `exit_batches` and `exit_validators` are
  modelled as lists of records; `INSERT OR REPLACE` and
  `UPDATE ... WHERE pubkey = ?` are embedded as list transformations, and
  timestamps as natural numbers.
* The beacon oracle is a parameter (`Oracle`): a bulk endpoint and a
  single-key endpoint, each returning `Except` to model transport failures;
  `getValidatorStatusesBatch`'s fallback path is embedded over it.
* Aggregation queries (`GET /api/statistics`, `GET /api/exit-statistics`)
  are embedded as counting functions over the table models.
-/

/-- A JavaScript string: a list of UTF-16 code units. -/
abbrev JSString := List Nat

/-- Embeds `String.prototype.toLowerCase` on one code unit, on the ASCII range:
uppercase letters 65..90 move to 97..122, everything else is unchanged. -/
def jsToLowerCode (c : Nat) : Nat :=
  if 65 ≤ c ∧ c ≤ 90 then c + 32 else c

/-- Embeds `String.prototype.toLowerCase` on a whole string. -/
def jsToLower (s : JSString) : JSString := s.map jsToLowerCode

/-- JavaScript whitespace, on the ASCII range: TAB, LF, VT, FF, CR, SPACE. -/
def isJsSpace (c : Nat) : Bool :=
  decide (c = 9 ∨ c = 10 ∨ c = 11 ∨ c = 12 ∨ c = 13 ∨ c = 32)

/-- Embeds `String.prototype.trim`: drop whitespace from both ends. -/
def jsTrim (s : JSString) : JSString :=
  ((s.dropWhile isJsSpace).reverse.dropWhile isJsSpace).reverse

/-- Embeds `String.prototype.startsWith`. -/
def startsWithCodes : JSString → JSString → Bool
  | [], _ => true
  | _ :: _, [] => false
  | p :: ps, c :: cs => p == c && startsWithCodes ps cs

/-- Embeds `normalizePubkey` (server/utils.js lines 2-7): the empty string is passed
through (`!pubkey`); otherwise trim, prepend `"0x"` (code units 48, 120) when
the trimmed string does not start with `"0x"`, and lowercase. -/
def normalizePubkey (pubkey : JSString) : JSString :=
  if pubkey = [] then pubkey
  else jsToLower (if startsWithCodes [48, 120] (jsTrim pubkey) then jsTrim pubkey
    else 48 :: 120 :: jsTrim pubkey)

theorem jsToLowerCode_idem (c : Nat) :
    jsToLowerCode (jsToLowerCode c) = jsToLowerCode c := by
  unfold jsToLowerCode
  split_ifs <;> omega

theorem isJsSpace_jsToLowerCode (c : Nat) :
    isJsSpace (jsToLowerCode c) = isJsSpace c := by
  unfold jsToLowerCode isJsSpace
  split_ifs with h
  · simp only [decide_eq_decide]
    omega
  · rfl

theorem jsToLower_idem (s : JSString) : jsToLower (jsToLower s) = jsToLower s := by
  unfold jsToLower
  rw [List.map_map]
  congr 1
  funext c
  exact jsToLowerCode_idem c

theorem dropWhile_cons_of_neg {α : Type} {p : α → Bool} {a : α} {l : List α}
    (h : p a = false) : (a :: l).dropWhile p = a :: l := by
  simp [List.dropWhile_cons, h]

theorem head?_dropWhile {α : Type} {p : α → Bool} (l : List α) {c : α}
    (h : (l.dropWhile p).head? = some c) : p c = false := by
  induction l with
  | nil => simp [List.dropWhile] at h
  | cons a as ih =>
    rw [List.dropWhile_cons] at h
    by_cases hpa : p a
    · simp only [hpa, if_true] at h
      exact ih h
    · simp only [hpa, Bool.false_eq_true, if_false, List.head?_cons,
        Option.some.injEq] at h
      rw [← h]
      simp [hpa]

theorem getLast?_dropWhile_of_ne_nil {α : Type} {p : α → Bool} (l : List α)
    (h : l.dropWhile p ≠ []) : (l.dropWhile p).getLast? = l.getLast? := by
  induction l with
  | nil => simp [List.dropWhile] at h
  | cons a as ih =>
    rw [List.dropWhile_cons]
    by_cases hpa : p a
    · rw [List.dropWhile_cons, if_pos hpa] at h
      have has : as ≠ [] := by
        intro e
        rw [e] at h
        simp [List.dropWhile] at h
      simp only [hpa, if_true]
      rw [ih h]
      cases as with
      | nil => exact absurd rfl has
      | cons b bs => rw [List.getLast?_cons_cons]
    · simp [hpa]

theorem jsTrim_head_not_space (s : JSString) {c : Nat}
    (h : (jsTrim s).head? = some c) : isJsSpace c = false := by
  unfold jsTrim at h
  rw [List.head?_reverse] at h
  have hne : (s.dropWhile isJsSpace).reverse.dropWhile isJsSpace ≠ [] := by
    intro e
    rw [e] at h
    simp at h
  rw [getLast?_dropWhile_of_ne_nil _ hne, List.getLast?_reverse] at h
  exact head?_dropWhile _ h

theorem jsTrim_getLast_not_space (s : JSString) {c : Nat}
    (h : (jsTrim s).getLast? = some c) : isJsSpace c = false := by
  unfold jsTrim at h
  rw [List.getLast?_reverse] at h
  exact head?_dropWhile _ h

theorem jsTrim_eq_self (s : JSString)
    (h1 : ∀ c, s.head? = some c → isJsSpace c = false)
    (h2 : ∀ c, s.getLast? = some c → isJsSpace c = false) : jsTrim s = s := by
  unfold jsTrim
  have e1 : s.dropWhile isJsSpace = s := by
    cases s with
    | nil => rfl
    | cons a as => exact dropWhile_cons_of_neg (h1 a rfl)
  rw [e1]
  have e2 : s.reverse.dropWhile isJsSpace = s.reverse := by
    cases hr : s.reverse with
    | nil => rfl
    | cons a as =>
      have ha : s.getLast? = some a := by
        rw [← List.head?_reverse, hr, List.head?_cons]
      rw [← hr]
      rw [hr]
      exact dropWhile_cons_of_neg (h2 a ha)
  rw [e2, List.reverse_reverse]

theorem startsWithCodes_two {a b : Nat} {s : JSString}
    (h : startsWithCodes [a, b] s = true) : ∃ u, s = a :: b :: u := by
  match s with
  | [] => simp [startsWithCodes] at h
  | [c] => simp [startsWithCodes] at h
  | c :: d :: u =>
    simp only [startsWithCodes, Bool.and_eq_true, beq_iff_eq] at h
    obtain ⟨h1, h2, -⟩ := h
    exact ⟨u, by rw [h1, h2]⟩

theorem jsToLower_cons_0x (v : JSString) :
    jsToLower (48 :: 120 :: v) = 48 :: 120 :: jsToLower v := by
  unfold jsToLower
  rw [List.map_cons, List.map_cons]
  norm_num [jsToLowerCode]

/-- Characterization of `normalizePubkey` on nonempty input: the result is
`"0x"` followed by the lowercased remainder of the trimmed input. -/
theorem normalizePubkey_eq_of_ne_nil (s : JSString) (h : s ≠ []) :
    normalizePubkey s =
      jsToLower (if startsWithCodes [48, 120] (jsTrim s) then jsTrim s
        else 48 :: 120 :: jsTrim s) := by
  unfold normalizePubkey
  rw [if_neg h]

theorem normalizePubkey_of_ne_nil (s : JSString) (h : s ≠ []) :
    ∃ u : JSString, normalizePubkey s = 48 :: 120 :: jsToLower u ∧
      (u = jsTrim s ∨ 48 :: 120 :: u = jsTrim s) := by
  rw [normalizePubkey_eq_of_ne_nil s h]
  by_cases hp : startsWithCodes [48, 120] (jsTrim s) = true
  · obtain ⟨u, hu⟩ := startsWithCodes_two hp
    refine ⟨u, ?_, Or.inr hu.symm⟩
    rw [if_pos hp, hu]
    exact jsToLower_cons_0x u
  · refine ⟨jsTrim s, ?_, Or.inl rfl⟩
    rw [if_neg hp]
    exact jsToLower_cons_0x (jsTrim s)

theorem getLast?_cons_cons_of_ne_nil {α : Type} (a b : α) {l : List α}
    (h : l ≠ []) : (a :: b :: l).getLast? = l.getLast? := by
  cases l with
  | nil => exact absurd rfl h
  | cons c cs => rw [List.getLast?_cons_cons, List.getLast?_cons_cons]

theorem getLast?_jsToLower (u : JSString) :
    (jsToLower u).getLast? = u.getLast?.map jsToLowerCode := by
  unfold jsToLower
  induction u with
  | nil => rfl
  | cons a as ih =>
    cases as with
    | nil => rfl
    | cons b bs =>
      rw [List.getLast?_cons_cons, List.map_cons, List.map_cons,
        List.getLast?_cons_cons, ← List.map_cons]
      exact ih

theorem normalizePubkey_fixed (s : JSString) (h : s ≠ []) :
    normalizePubkey (normalizePubkey s) = normalizePubkey s := by
  obtain ⟨u, hr, hu⟩ := normalizePubkey_of_ne_nil s h
  have hlast : ∀ c, (normalizePubkey s).getLast? = some c → isJsSpace c = false := by
    intro c hc
    rw [hr] at hc
    by_cases hul : jsToLower u = []
    · rw [hul] at hc
      have hc120 : 120 = c := by simpa using hc
      rw [← hc120]
      rfl
    · rw [getLast?_cons_cons_of_ne_nil _ _ hul, getLast?_jsToLower] at hc
      have hune : u ≠ [] := by
        intro e
        rw [e] at hul
        exact hul rfl
      obtain ⟨c0, hc0⟩ : ∃ c0, u.getLast? = some c0 := by
        cases hg : u.getLast? with
        | none => exact absurd (List.getLast?_eq_none_iff.mp hg) hune
        | some c0 => exact ⟨c0, rfl⟩
      rw [hc0] at hc
      have hc' : jsToLowerCode c0 = c := by simpa using hc
      have hc0sp : isJsSpace c0 = false := by
        rcases hu with hu | hu
        · exact jsTrim_getLast_not_space s (by rw [← hu]; exact hc0)
        · refine jsTrim_getLast_not_space s ?_
          rw [← hu]
          rw [getLast?_cons_cons_of_ne_nil _ _ hune]
          exact hc0
      rw [← hc', isJsSpace_jsToLowerCode]
      exact hc0sp
  have hhead : ∀ c, (normalizePubkey s).head? = some c → isJsSpace c = false := by
    intro c hc
    rw [hr, List.head?_cons, Option.some.injEq] at hc
    rw [← hc]
    rfl
  have hne : normalizePubkey s ≠ [] := by
    rw [hr]
    exact List.cons_ne_nil _ _
  have htrim : jsTrim (normalizePubkey s) = normalizePubkey s :=
    jsTrim_eq_self _ hhead hlast
  have hpre : startsWithCodes [48, 120] (jsTrim (normalizePubkey s)) = true := by
    rw [htrim, hr]
    simp [startsWithCodes]
  rw [normalizePubkey_eq_of_ne_nil (normalizePubkey s) hne, if_pos hpre, htrim]
  rw [hr, jsToLower_cons_0x, jsToLower_idem]

/-- Claim C7: key normalization is idempotent — `normalize (normalize k) =
normalize k` for every key string, a key already in normalized form is
returned unchanged, and the literal empty string is passed through
unchanged. -/
theorem normalizePubkey_idempotent (k : JSString) :
    normalizePubkey (normalizePubkey k) = normalizePubkey k ∧
    (∀ j : JSString, k = normalizePubkey j → normalizePubkey k = k) ∧
    normalizePubkey ([] : JSString) = [] := by
  refine ⟨?_, ?_, rfl⟩
  · by_cases h : k = []
    · rw [h]
      rfl
    · exact normalizePubkey_fixed k h
  · intro j hj
    by_cases hjn : j = []
    · rw [hj, hjn]
      rfl
    · rw [hj]
      exact normalizePubkey_fixed j hjn

/-- Claim C9: the prefix check in `normalizePubkey` compares case-sensitively
against `"0x"` — an input whose trimmed form starts with `"0X"` (code units
48, 88) gets a second prefix prepended, so the output starts with `"0x0x"`
(48, 120, 48, 120); consequently `"0xAB"` and `"0XAB"` normalize to different
canonical forms. -/
theorem normalize_prefix_case_sensitive (s : JSString) (h1 : s ≠ [])
    (h2 : startsWithCodes [48, 88] (jsTrim s) = true) :
    startsWithCodes [48, 120, 48, 120] (normalizePubkey s) = true ∧
    normalizePubkey [48, 120, 65, 66] ≠ normalizePubkey [48, 88, 65, 66] := by
  refine ⟨?_, by decide⟩
  obtain ⟨u, hu⟩ := startsWithCodes_two h2
  rw [normalizePubkey_eq_of_ne_nil s h1, hu]
  have hp : ¬ startsWithCodes [48, 120] (48 :: 88 :: u) = true := by
    simp [startsWithCodes]
  rw [if_neg hp]
  have e : jsToLower (48 :: 120 :: 48 :: 88 :: u) = 48 :: 120 :: 48 :: 120 :: jsToLower u := by
    unfold jsToLower
    norm_num [jsToLowerCode]
  rw [e]
  simp [startsWithCodes]

/-- Witness for C9 at the concrete input `"0XAB"`. -/
theorem normalize_prefix_case_sensitive_witness :
    startsWithCodes [48, 120, 48, 120] (normalizePubkey [48, 88, 65, 66]) = true ∧
    normalizePubkey [48, 120, 65, 66] ≠ normalizePubkey [48, 88, 65, 66] :=
  normalize_prefix_case_sensitive [48, 88, 65, 66] (by decide) (by decide)

/-- Embeds `mapBeaconStatus` (server/beaconApi.js lines 91-98): collapse the beacon
vocabulary to the internal three-state model. -/
def mapBeaconStatus (beaconStatus : String) : String :=
  if beaconStatus = "active_ongoing" ∨ beaconStatus = "active_exiting" ∨
      beaconStatus = "active_slashed" then "active"
  else if beaconStatus = "pending_queued" ∨ beaconStatus = "exited_unslashed" ∨
      beaconStatus = "exited_slashed" then "exit_queue"
  else "inactive"

/-- The status table as the spec states it (section 4.3), for the refinement
comparison with the source's `mapBeaconStatus`. -/
def specStatusMapping (s : String) : String :=
  if s ∈ (["active_ongoing", "active_exiting", "active_slashed"] : List String) then
    "active"
  else if s ∈ (["pending_queued", "exited_unslashed", "exited_slashed"] : List String) then
    "exit_queue"
  else "inactive"

/-- Claim C4: the status mapper is total — on every string it returns exactly
one of active, exit_queue, inactive — and agrees with the spec's table
(`active_ongoing`/`active_exiting`/`active_slashed` to active,
`pending_queued`/`exited_unslashed`/`exited_slashed` to exit_queue,
everything else to inactive). -/
theorem mapBeaconStatus_total_correct (s : String) :
    (mapBeaconStatus s = "active" ∨ mapBeaconStatus s = "exit_queue" ∨
      mapBeaconStatus s = "inactive") ∧
    mapBeaconStatus s = specStatusMapping s := by
  constructor
  · unfold mapBeaconStatus
    split_ifs <;> simp
  · unfold mapBeaconStatus specStatusMapping
    simp only [List.mem_cons, List.mem_singleton, List.not_mem_nil, or_false]

/-- Single-key request timeout, in milliseconds (beaconApi.js line 14:
`timeout: 10000` in `getValidatorStatus`). -/
def singleRequestTimeoutMs : Nat := 10000

/-- Bulk request timeout, in milliseconds (beaconApi.js line 47:
`timeout: 60000` in `getValidatorStatusesBatch`). -/
def batchRequestTimeoutMs : Nat := 60000

/-- Claim C8 (counterexample): the bulk timeout is NOT between 8 and 10 times
the single-key timeout — 60000 < 8 * 10000. -/
theorem timeout_ratio_counterexample :
    ¬ (8 * singleRequestTimeoutMs ≤ batchRequestTimeoutMs ∧
       batchRequestTimeoutMs ≤ 10 * singleRequestTimeoutMs) := by
  decide

/-- Claim C8 (amended): the bulk timeout is exactly 6 times the single-key
timeout (60000 ms vs 10000 ms). -/
theorem timeout_ratio_amended :
    batchRequestTimeoutMs = 6 * singleRequestTimeoutMs := by
  decide

/-- One entry of a beacon response, as `getValidatorStatus` /
`getValidatorStatusesBatch` project it (status, pubkey, effective balance,
slashed flag). -/
structure ValidatorInfo where
  status : String
  pubkey : JSString
  effective_balance : Nat
  slashed : Bool
deriving DecidableEq

/-- The external beacon oracle: the bulk endpoint and the single-key
endpoint. A transport failure (timeout, rejection) is an `Except.error`; the
single-key endpoint's `ok none` is the 404 / no-data case, which
`getValidatorStatus` turns into `null` rather than an error. A bulk success
whose body carries no data yields `ok []` (beaconApi.js line 64). -/
structure Oracle where
  bulk : List JSString → Except String (List ValidatorInfo)
  single : JSString → Except String (Option ValidatorInfo)

/-- Embeds `getValidatorStatus` (beaconApi.js lines 7-37): normalize the key, then
ask the single-key endpoint. -/
def getValidatorStatus (o : Oracle) (pubkey : JSString) :
    Except String (Option ValidatorInfo) :=
  o.single (normalizePubkey pubkey)

/-- One key of the fallback path (beaconApi.js lines 72-79): a per-key
failure is logged and becomes `null`, it never escapes the batch. -/
def fetchOneSafe (o : Oracle) (pubkey : JSString) : Option ValidatorInfo :=
  match getValidatorStatus o pubkey with
  | .ok r => r
  | .error _ => none

/-- The fallback chunk size (beaconApi.js line 69: `CHUNK_SIZE = 50`). -/
def FALLBACK_CHUNK_SIZE : Nat := 50

/-- The chunk partition the fallback loop walks (beaconApi.js lines 70-85:
`for (let i = 0; i < pubkeys.length; i += CHUNK_SIZE)` with
`slice(i, i + CHUNK_SIZE)`). -/
def chunksOf50 : List α → List (List α)
  | [] => []
  | a :: l => ((a :: l).take FALLBACK_CHUNK_SIZE) ::
      chunksOf50 ((a :: l).drop FALLBACK_CHUNK_SIZE)
termination_by l => l.length
decreasing_by
  simp only [List.length_drop, List.length_cons, FALLBACK_CHUNK_SIZE]
  omega

/-- Embeds `getValidatorStatusesBatch` (beaconApi.js lines 40-88): try the bulk
endpoint on the normalized keys; on any failure, fall back to per-key
lookups in chunks of 50, dropping the `null` results. -/
def getValidatorStatusesBatch (o : Oracle) (pubkeys : List JSString) :
    List ValidatorInfo :=
  match o.bulk (pubkeys.map normalizePubkey) with
  | .ok data => data
  | .error _ =>
      ((chunksOf50 pubkeys).map
        (fun chunk => (chunk.map (fetchOneSafe o)).filterMap id)).flatten

theorem chunksOf50_flatten (l : List α) : (chunksOf50 l).flatten = l := by
  have H : ∀ (n : Nat) (l : List α), l.length ≤ n → (chunksOf50 l).flatten = l := by
    intro n
    induction n with
    | zero =>
      intro l hl
      have : l = [] := List.length_eq_zero.mp (Nat.le_zero.mp hl)
      rw [this]
      simp [chunksOf50]
    | succ n ih =>
      intro l hl
      cases l with
      | nil => simp [chunksOf50]
      | cons a t =>
        rw [chunksOf50, List.flatten_cons, ih ((a :: t).drop FALLBACK_CHUNK_SIZE) ?_,
          List.take_append_drop]
        simp only [List.length_drop, List.length_cons, FALLBACK_CHUNK_SIZE]
        simp only [List.length_cons] at hl
        omega
  exact H l.length l le_rfl

theorem chunksOf50_le (l : List α) :
    ∀ c ∈ chunksOf50 l, c.length ≤ FALLBACK_CHUNK_SIZE := by
  have H : ∀ (n : Nat) (l : List α), l.length ≤ n →
      ∀ c ∈ chunksOf50 l, c.length ≤ FALLBACK_CHUNK_SIZE := by
    intro n
    induction n with
    | zero =>
      intro l hl c hc
      have : l = [] := List.length_eq_zero.mp (Nat.le_zero.mp hl)
      rw [this] at hc
      simp [chunksOf50] at hc
    | succ n ih =>
      intro l hl c hc
      cases l with
      | nil => simp [chunksOf50] at hc
      | cons a t =>
        rw [chunksOf50] at hc
        rcases List.mem_cons.mp hc with hc | hc
        · rw [hc]
          simp [List.length_take]
        · refine ih ((a :: t).drop FALLBACK_CHUNK_SIZE) ?_ c hc
          simp only [List.length_drop, List.length_cons, FALLBACK_CHUNK_SIZE]
          simp only [List.length_cons] at hl
          omega
  exact H l.length l le_rfl

theorem filterMap_flatten_map (f : α → Option β) (L : List (List α)) :
    ((L.map (fun c => (c.map f).filterMap id)).flatten) = L.flatten.filterMap f := by
  induction L with
  | nil => rfl
  | cons c cs ih =>
    rw [List.map_cons, List.flatten_cons, List.flatten_cons, List.filterMap_append,
      ih, List.filterMap_map]
    congr 1

/-- Claim C6: when the bulk oracle request fails, the batch fetch falls back
to per-key lookups over a partition of the key list into chunks of at most
50 that concatenates back to the key list; every per-key failure is excluded
from the result rather than aborting the batch, so the result is exactly the
list of per-key successes in order. -/
theorem batch_fallback_partition (o : Oracle) (pubkeys : List JSString)
    (e : String) (hb : o.bulk (pubkeys.map normalizePubkey) = .error e) :
    getValidatorStatusesBatch o pubkeys = pubkeys.filterMap (fetchOneSafe o) ∧
    (chunksOf50 pubkeys).flatten = pubkeys ∧
    (∀ c ∈ chunksOf50 pubkeys, c.length ≤ FALLBACK_CHUNK_SIZE) := by
  refine ⟨?_, chunksOf50_flatten pubkeys, chunksOf50_le pubkeys⟩
  unfold getValidatorStatusesBatch
  rw [hb]
  rw [filterMap_flatten_map, chunksOf50_flatten]

/-- Witness for C6: a concrete failing bulk oracle with one found key, one
erroring key and one unknown key. -/
def oracleBulkFails : Oracle where
  bulk := fun _ => .error "bulk failed"
  single := fun k =>
    if k = [48, 120, 97, 97] then .ok (some ⟨"active_ongoing", [48, 120, 97, 97], 32, false⟩)
    else if k = [48, 120, 98, 98] then .error "timeout"
    else .ok none

theorem batch_fallback_partition_witness :
    getValidatorStatusesBatch oracleBulkFails [[48, 120, 97, 97], [48, 120, 98, 98], [48, 120, 99, 99]] =
      [[48, 120, 97, 97], [48, 120, 98, 98], [48, 120, 99, 99]].filterMap (fetchOneSafe oracleBulkFails) ∧
    (chunksOf50 [[48, 120, 97, 97], [48, 120, 98, 98], [48, 120, 99, 99]]).flatten =
      ([[48, 120, 97, 97], [48, 120, 98, 98], [48, 120, 99, 99]] : List JSString) ∧
    (∀ c ∈ chunksOf50 ([[48, 120, 97, 97], [48, 120, 98, 98], [48, 120, 99, 99]] : List JSString),
      c.length ≤ FALLBACK_CHUNK_SIZE) :=
  batch_fallback_partition oracleBulkFails
    [[48, 120, 97, 97], [48, 120, 98, 98], [48, 120, 99, 99]] "bulk failed" rfl

/-- A row of the `validators` table (db.js lines 33-43): pubkey is UNIQUE,
provider and status are NOT NULL, json_filename and bucket_no are nullable,
timestamps default to the current time. -/
structure ValidatorRow where
  pubkey : JSString
  provider : String
  status : String
  json_filename : Option String
  bucket_no : Option String
  created_at : Nat
  updated_at : Nat
deriving DecidableEq

/-- A row of the `exit_batches` table (db.js lines 80-86). -/
structure ExitBatchRow where
  id : Nat
  filename : String
  uploaded_at : Nat
  total_validators : Nat
deriving DecidableEq

/-- A row of the `exit_validators` table (db.js lines 96-106):
`(batch_id, pubkey)` is UNIQUE, status defaults to pending. -/
structure ExitRow where
  id : Nat
  batch_id : Nat
  pubkey : JSString
  status : String
  created_at : Nat
  updated_at : Nat
deriving DecidableEq

/-- One parsed CSV record as `parseCSV` (csvParser.js lines 49-54) produces
it: a normalized pubkey plus provider, json_filename and bucket_no. -/
structure CsvRow where
  pubkey : JSString
  provider : String
  json_filename : Option String
  bucket_no : Option String
deriving DecidableEq

/-- The `INSERT OR REPLACE` performed per record by `POST /api/upload-csv`
(routes.js lines 56-75): the column list is
`(pubkey, provider, status, json_filename, updated_at)` — `bucket_no` is NOT
among the written columns, so the replaced row gets its default NULL; the
pubkey is normalized before saving, status is reset to pending. SQLite's
REPLACE on the UNIQUE pubkey removes every conflicting row and inserts the
new one. -/
def uploadPendingRow (v : CsvRow) (now : Nat) : ValidatorRow :=
  { pubkey := normalizePubkey v.pubkey
    provider := v.provider
    status := "pending"
    json_filename := v.json_filename
    bucket_no := none
    created_at := now
    updated_at := now }

def uploadCsvUpsert (db : List ValidatorRow) (v : CsvRow) (now : Nat) :
    List ValidatorRow :=
  db.filter (fun r => r.pubkey ≠ normalizePubkey v.pubkey) ++ [uploadPendingRow v now]

/-- The batch loop of `POST /api/upload-csv` (routes.js lines 51-87):
each parsed record is upserted in order. -/
def uploadCsvIngest (db : List ValidatorRow) (rows : List CsvRow) (now : Nat) :
    List ValidatorRow :=
  rows.foldl (fun d v => uploadCsvUpsert d v now) db

/-- The `INSERT OR REPLACE` performed per record by the `loadCSV` script
(scripts/loadCSV.js lines 36-55): unlike the upload route, its column list
includes `bucket_no`. -/
def loadCsvUpsert (db : List ValidatorRow) (v : CsvRow) (now : Nat) :
    List ValidatorRow :=
  db.filter (fun r => r.pubkey ≠ v.pubkey) ++
    [{ pubkey := v.pubkey
       provider := v.provider
       status := "pending"
       json_filename := v.json_filename
       bucket_no := v.bucket_no
       created_at := now
       updated_at := now }]

theorem countP_append (p : α → Bool) (l1 l2 : List α) :
    (l1 ++ l2).countP p = l1.countP p + l2.countP p := by
  induction l1 with
  | nil => simp
  | cons a l ih => simp [List.countP_cons, ih]; omega

theorem countP_upsert_self (db : List ValidatorRow) (k : JSString) (row : ValidatorRow)
    (hk : row.pubkey = k) :
    ((db.filter (fun r => r.pubkey ≠ k)) ++ [row]).countP (fun r => r.pubkey = k) = 1 := by
  rw [countP_append]
  have h0 : (db.filter (fun r => r.pubkey ≠ k)).countP (fun r => r.pubkey = k) = 0 := by
    rw [List.countP_eq_zero]
    intro a ha
    have := (List.mem_filter.mp ha).2
    simpa using this
  rw [h0]
  simp [List.countP_cons, hk]

/-- Claim C5 (amended): ingesting the same pubkey twice leaves exactly one
row for that pubkey, with the latest provider and json_filename and status
reset to pending; through the upload route the row's bucket_no is reset to
NULL (the route's column list omits it), while through the loadCSV script it
carries the latest bucket_no. -/
theorem upsert_semantics_amended (db : List ValidatorRow) (r1 r2 : CsvRow)
    (t1 t2 : Nat) (h : normalizePubkey r1.pubkey = normalizePubkey r2.pubkey) :
    ((uploadCsvUpsert (uploadCsvUpsert db r1 t1) r2 t2).countP
        (fun r => r.pubkey = normalizePubkey r2.pubkey) = 1 ∧
      (uploadCsvUpsert (uploadCsvUpsert db r1 t1) r2 t2).getLast? = some
        { pubkey := normalizePubkey r2.pubkey, provider := r2.provider,
          status := "pending", json_filename := r2.json_filename,
          bucket_no := none, created_at := t2, updated_at := t2 }) ∧
    ((loadCsvUpsert (loadCsvUpsert db r1 t1) r2 t2).countP
        (fun r => r.pubkey = r2.pubkey) = 1 ∧
      (loadCsvUpsert (loadCsvUpsert db r1 t1) r2 t2).getLast? = some
        { pubkey := r2.pubkey, provider := r2.provider,
          status := "pending", json_filename := r2.json_filename,
          bucket_no := r2.bucket_no, created_at := t2, updated_at := t2 }) := by
  refine ⟨⟨?_, ?_⟩, ?_, ?_⟩
  · exact countP_upsert_self _ _ _ rfl
  · unfold uploadCsvUpsert
    rw [List.getLast?_append]
    rfl
  · exact countP_upsert_self _ _ _ rfl
  · unfold loadCsvUpsert
    rw [List.getLast?_append]
    rfl

/-- Claim C5 (counterexample): re-ingesting pubkey `"ab"` through the upload
route with bucket `"2"` leaves the surviving row's bucket_no at NULL, not at
the latest ingested value `"2"`. -/
theorem upsert_semantics_counterexample :
    (uploadCsvUpsert (uploadCsvUpsert []
        { pubkey := [97, 98], provider := "Lido",
          json_filename := some "a.json", bucket_no := some "1" } 1)
        { pubkey := [97, 98], provider := "Etherfi",
          json_filename := some "b.json", bucket_no := some "2" } 2).getLast? = some
      { pubkey := [48, 120, 97, 98], provider := "Etherfi", status := "pending",
        json_filename := some "b.json", bucket_no := none,
        created_at := 2, updated_at := 2 } ∧
    ({ pubkey := [97, 98], provider := "Etherfi",
        json_filename := some "b.json", bucket_no := some "2" } : CsvRow).bucket_no ≠
      (none : Option String) := by
  constructor
  · rfl
  · simp

/-- Witness for C5 at two concrete records with the same pubkey. -/
theorem upsert_semantics_witness :
    ((uploadCsvUpsert (uploadCsvUpsert []
        { pubkey := [97, 98], provider := "Lido",
          json_filename := some "a.json", bucket_no := some "1" } 1)
        { pubkey := [97, 98], provider := "Etherfi",
          json_filename := some "b.json", bucket_no := some "2" } 2).countP
        (fun r => r.pubkey = normalizePubkey [97, 98]) = 1 ∧
      (uploadCsvUpsert (uploadCsvUpsert []
        { pubkey := [97, 98], provider := "Lido",
          json_filename := some "a.json", bucket_no := some "1" } 1)
        { pubkey := [97, 98], provider := "Etherfi",
          json_filename := some "b.json", bucket_no := some "2" } 2).getLast? = some
        { pubkey := normalizePubkey [97, 98], provider := "Etherfi",
          status := "pending", json_filename := some "b.json",
          bucket_no := none, created_at := 2, updated_at := 2 }) ∧
    ((loadCsvUpsert (loadCsvUpsert []
        { pubkey := [97, 98], provider := "Lido",
          json_filename := some "a.json", bucket_no := some "1" } 1)
        { pubkey := [97, 98], provider := "Etherfi",
          json_filename := some "b.json", bucket_no := some "2" } 2).countP
        (fun r => r.pubkey = [97, 98]) = 1 ∧
      (loadCsvUpsert (loadCsvUpsert []
        { pubkey := [97, 98], provider := "Lido",
          json_filename := some "a.json", bucket_no := some "1" } 1)
        { pubkey := [97, 98], provider := "Etherfi",
          json_filename := some "b.json", bucket_no := some "2" } 2).getLast? = some
        { pubkey := [97, 98], provider := "Etherfi", status := "pending",
          json_filename := some "b.json", bucket_no := some "2",
          created_at := 2, updated_at := 2 }) :=
  upsert_semantics_amended []
    { pubkey := [97, 98], provider := "Lido",
      json_filename := some "a.json", bucket_no := some "1" }
    { pubkey := [97, 98], provider := "Etherfi",
      json_filename := some "b.json", bucket_no := some "2" } 1 2 rfl

/-- The identifiers in scope inside the `POST /api/upload-csv` handler
(routes.js lines 32-97): module-level bindings and the handler's own
declarations. No declaration of `updated` exists anywhere in the file. -/
def uploadHandlerScope : List String :=
  ["express", "multer", "path", "fs", "getDatabase", "parseCSV",
   "getValidatorStatusesBatch", "mapBeaconStatus", "getExitQueueInfo",
   "normalizePubkey", "router", "uploadsDir", "upload",
   "req", "res", "filePath", "validators", "db", "inserted", "batchSize",
   "i", "batch", "stmt"]

/-- Reading an identifier in JavaScript: a name not in scope throws a
ReferenceError. -/
def lookupIdent (scope : List String) (x : String) : Except String String :=
  if x ∈ scope then .ok x else .error ("ReferenceError: " ++ x ++ " is not defined")

/-- Building the success body of `POST /api/upload-csv` (routes.js lines
92-97): the object literal reads the identifiers `validators` (for `total`),
`inserted` and `updated`. -/
def buildUploadSuccessBody (scope : List String) : Except String (List String) := do
  let t ← lookupIdent scope "validators"
  let i ← lookupIdent scope "inserted"
  let u ← lookupIdent scope "updated"
  pure [t, i, u]

/-- What the HTTP caller of `POST /api/upload-csv` can observe. `unhandled`
means the exception escaped the handler (the async route sends no response
at all on that path). -/
inductive UploadOutcome where
  | badRequest (msg : String)
  | ok (total inserted : Nat)
  | error500 (msg : String)
  | unhandled (msg : String)
deriving DecidableEq

/-- Embeds `POST /api/upload-csv` (routes.js lines 32-105) on an already-parsed CSV:
empty parses get a 400 before any write; otherwise all rows are upserted,
the uploaded file is removed (line 90), and the success body is built —
which throws a ReferenceError on the undeclared `updated` (line 96). The
catch block (lines 98-103) then calls `fs.unlinkSync(req.file.path)` again;
the file is already gone, so `unlinkSync` throws ENOENT and the
`res.status(500)` line is never reached: the exception escapes the handler. -/
def unlinkSyncResult (fileOnDisk : Bool) : Except String Unit :=
  if fileOnDisk then .ok () else .error "ENOENT: no such file or directory, unlink"

def uploadCsvHandler (db : List ValidatorRow) (rows : List CsvRow) (now : Nat) :
    UploadOutcome × List ValidatorRow :=
  if rows.length = 0 then (.badRequest "No valid data found in CSV file", db)
  else
    match buildUploadSuccessBody uploadHandlerScope with
    | .ok _ => (.ok rows.length rows.length, uploadCsvIngest db rows now)
    | .error e =>
        match unlinkSyncResult false with
        | .ok _ => (.error500 e, uploadCsvIngest db rows now)
        | .error msg => (.unhandled msg, uploadCsvIngest db rows now)

theorem upsert_preserves_pubkey_pending (db : List ValidatorRow) (v : CsvRow)
    (now : Nat) (k : JSString)
    (h : ∃ r ∈ db, r.pubkey = k ∧ r.status = "pending") :
    ∃ r ∈ uploadCsvUpsert db v now, r.pubkey = k ∧ r.status = "pending" := by
  obtain ⟨r, hr, hk, hs⟩ := h
  by_cases hke : k = normalizePubkey v.pubkey
  · refine ⟨uploadPendingRow v now, ?_, hke.symm, rfl⟩
    unfold uploadCsvUpsert
    exact List.mem_append_right _ (List.mem_singleton.mpr rfl)
  · refine ⟨r, ?_, hk, hs⟩
    unfold uploadCsvUpsert
    refine List.mem_append_left _ (List.mem_filter.mpr ⟨hr, ?_⟩)
    simp [hk, hke]

theorem uploadCsvIngest_preserves (db : List ValidatorRow) (rows : List CsvRow)
    (now : Nat) (k : JSString)
    (h : ∃ r ∈ db, r.pubkey = k ∧ r.status = "pending") :
    ∃ r ∈ uploadCsvIngest db rows now, r.pubkey = k ∧ r.status = "pending" := by
  induction rows generalizing db with
  | nil => exact h
  | cons w ws ih =>
    show ∃ r ∈ uploadCsvIngest (uploadCsvUpsert db w now) ws now, _
    exact ih _ (upsert_preserves_pubkey_pending db w now k h)

theorem uploadCsvIngest_mem (db : List ValidatorRow) (rows : List CsvRow)
    (now : Nat) :
    ∀ v ∈ rows, ∃ r ∈ uploadCsvIngest db rows now,
      r.pubkey = normalizePubkey v.pubkey ∧ r.status = "pending" := by
  induction rows generalizing db with
  | nil => intro v hv; simp at hv
  | cons w ws ih =>
    intro v hv
    show ∃ r ∈ uploadCsvIngest (uploadCsvUpsert db w now) ws now, _
    rcases List.mem_cons.mp hv with hv | hv
    · rw [hv]
      refine uploadCsvIngest_preserves _ ws now _ ?_
      refine ⟨uploadPendingRow w now, ?_, rfl, rfl⟩
      unfold uploadCsvUpsert
      exact List.mem_append_right _ (List.mem_singleton.mpr rfl)
    · exact ih _ v hv

/-- Claim C10 (amended): on a nonempty parsed CSV the upload handler first
persists every row (each uploaded pubkey ends up stored, normalized, with
status pending), then fails building the success body on the undeclared
identifier `updated`; the catch block's second `unlinkSync` of the
already-deleted file throws again, so the exception escapes the handler and
no 500 response is produced — yet all rows remain written. -/
theorem upload_csv_persists_then_fails (db : List ValidatorRow)
    (rows : List CsvRow) (now : Nat) (h : rows ≠ []) :
    (uploadCsvHandler db rows now).1 =
      .unhandled "ENOENT: no such file or directory, unlink" ∧
    (uploadCsvHandler db rows now).2 = uploadCsvIngest db rows now ∧
    buildUploadSuccessBody uploadHandlerScope =
      .error "ReferenceError: updated is not defined" ∧
    (∀ v ∈ rows, ∃ r ∈ (uploadCsvHandler db rows now).2,
      r.pubkey = normalizePubkey v.pubkey ∧ r.status = "pending") := by
  have hlen : ¬ rows.length = 0 := by
    intro e
    exact h (List.length_eq_zero.mp e)
  have hbody : buildUploadSuccessBody uploadHandlerScope =
      .error "ReferenceError: updated is not defined" := by rfl
  have hout : uploadCsvHandler db rows now =
      (.unhandled "ENOENT: no such file or directory, unlink",
        uploadCsvIngest db rows now) := by
    unfold uploadCsvHandler
    rw [if_neg hlen, hbody]
    rfl
  refine ⟨by rw [hout], by rw [hout], hbody, ?_⟩
  intro v hv
  rw [hout]
  exact uploadCsvIngest_mem db rows now v hv

/-- A concrete parsed CSV record used by the C10 concrete statements. -/
def csvRowAb : CsvRow :=
  { pubkey := [97, 98]
    provider := "Lido"
    json_filename := some "a.json"
    bucket_no := some "1" }

/-- Claim C10 (counterexample): at a concrete one-row upload the handler's
outcome is an escaped exception, not a 500 response, while the row was
written. -/
theorem upload_csv_counterexample :
    (uploadCsvHandler [] [csvRowAb] 3).1 =
      .unhandled "ENOENT: no such file or directory, unlink" ∧
    (∀ m : String, (uploadCsvHandler [] [csvRowAb] 3).1 ≠ .error500 m) ∧
    (uploadCsvHandler [] [csvRowAb] 3).2 =
      [{ pubkey := [48, 120, 97, 98]
         provider := "Lido"
         status := "pending"
         json_filename := some "a.json"
         bucket_no := none
         created_at := 3
         updated_at := 3 }] := by
  refine ⟨rfl, ?_, ?_⟩
  · intro m e
    rw [show (uploadCsvHandler [] [csvRowAb] 3).1 =
      UploadOutcome.unhandled "ENOENT: no such file or directory, unlink" from rfl] at e
    exact UploadOutcome.noConfusion e
  · rfl

/-- Witness for C10 at a concrete one-row upload. -/
theorem upload_csv_persists_then_fails_witness :
    (uploadCsvHandler [] [csvRowAb] 3).1 =
      .unhandled "ENOENT: no such file or directory, unlink" ∧
    (uploadCsvHandler [] [csvRowAb] 3).2 = uploadCsvIngest [] [csvRowAb] 3 ∧
    buildUploadSuccessBody uploadHandlerScope =
      .error "ReferenceError: updated is not defined" ∧
    (∀ v ∈ [csvRowAb], ∃ r ∈ (uploadCsvHandler [] [csvRowAb] 3).2,
      r.pubkey = normalizePubkey v.pubkey ∧ r.status = "pending") :=
  upload_csv_persists_then_fails [] [csvRowAb] 3 (by simp)

/-- The status map both sync routes build from a beacon response (routes.js
lines 479-484 and 620-626): key = normalized response pubkey, value = mapped
status. Assignments to a JS object are read back last-write-wins. -/
def buildStatusMap (statuses : List ValidatorInfo) : List (JSString × String) :=
  statuses.map (fun v => (normalizePubkey v.pubkey, mapBeaconStatus v.status))

/-- Reading `statusMap[k]`: the most recent assignment to `k`, if any. -/
def objGet (m : List (JSString × String)) (k : JSString) : Option String :=
  (m.reverse.find? (fun e => e.1 == k)).map Prod.snd

/-- Embeds `UPDATE ... SET status = ?, updated_at = CURRENT_TIMESTAMP WHERE pubkey = ?`:
every row whose pubkey matches gets the new status and timestamp in one
statement. -/
def updateWhere (pk : α → JSString) (set : String → Nat → α → α)
    (k : JSString) (st : String) (now : Nat) (db : List α) : List α :=
  db.map (fun r => if pk r = k then set st now r else r)

/-- One chunk's update loop (routes.js lines 497-500 and 637-647): one
UPDATE per batch key, in order. -/
def applyChunk (pk : α → JSString) (set : String → Nat → α → α)
    (statusFor : JSString → String) (now : Nat)
    (batch : List JSString) (db : List α) : List α :=
  batch.foldl (fun d k => updateWhere pk set k (statusFor k) now d) db

def ValidatorRow.setSync (st : String) (t : Nat) (r : ValidatorRow) : ValidatorRow :=
  { r with status := st, updated_at := t }

def ExitRow.setSync (st : String) (t : Nat) (r : ExitRow) : ExitRow :=
  { r with status := st, updated_at := t }

theorem applyChunk_eq (pk : α → JSString) (set : String → Nat → α → α)
    (statusFor : JSString → String) (now : Nat) (batch : List JSString)
    (db : List α)
    (hpk : ∀ s t r, pk (set s t r) = pk r)
    (hset : ∀ s1 t1 s2 t2 r, set s2 t2 (set s1 t1 r) = set s2 t2 r) :
    applyChunk pk set statusFor now batch db =
      db.map (fun r => if pk r ∈ batch then set (statusFor (pk r)) now r else r) := by
  induction batch generalizing db with
  | nil => simp [applyChunk]
  | cons k ks ih =>
    show applyChunk pk set statusFor now ks
        (updateWhere pk set k (statusFor k) now db) = _
    rw [ih (updateWhere pk set k (statusFor k) now db)]
    unfold updateWhere
    rw [List.map_map]
    apply List.map_congr_left
    intro r hr
    simp only [Function.comp]
    by_cases h1 : pk r = k
    · rw [if_pos h1]
      by_cases h2 : pk (set (statusFor k) now r) ∈ ks
      · rw [if_pos h2, hpk] at *
        rw [hset]
        rw [h1] at h2 ⊢
        rw [if_pos (List.mem_cons_of_mem k h2)]
      · rw [if_neg h2]
        rw [hpk, h1] at h2
        rw [h1, if_pos (List.mem_cons_self k ks)]
    · rw [if_neg h1]
      by_cases h2 : pk r ∈ ks
      · rw [if_pos h2, if_pos (List.mem_cons_of_mem k h2)]
      · rw [if_neg h2, if_neg ?_]
        intro hm
        rcases List.mem_cons.mp hm with hm | hm
        · exact h1 hm
        · exact h2 hm

/-- The per-chunk update of `POST /api/sync-exit-statuses` (routes.js lines
487-517): status from the map, falling back to unknown. -/
def applySyncChunkExit (edb : List ExitRow) (m : List (JSString × String))
    (batch : List JSString) (now : Nat) : List ExitRow :=
  applyChunk ExitRow.pubkey ExitRow.setSync
    (fun k => (objGet m k).getD "unknown") now batch edb

/-- The per-chunk update of `POST /api/sync-statuses` (routes.js lines
628-665): status from the map, falling back to inactive. -/
def applySyncChunkValidators (vdb : List ValidatorRow)
    (m : List (JSString × String)) (batch : List JSString) (now : Nat) :
    List ValidatorRow :=
  applyChunk ValidatorRow.pubkey ValidatorRow.setSync
    (fun k => (objGet m k).getD "inactive") now batch vdb

theorem objGet_eq_none_of_not_mem (m : List (JSString × String)) (k : JSString)
    (h : k ∉ m.map Prod.fst) : objGet m k = none := by
  unfold objGet
  have hf : m.reverse.find? (fun e => e.1 == k) = none := by
    rw [List.find?_eq_none]
    intro e he hbeq
    apply h
    have he1 : e.1 = k := by simpa using hbeq
    rw [← he1]
    exact List.mem_map_of_mem Prod.fst (List.mem_reverse.mp he)
  rw [hf]
  rfl

/-- Claim C2 (amended): in a sync chunk, a target record whose pubkey is in
the chunk but absent from the (normalized) oracle response keys has its
status set to unknown by the exit-tracking sync, but to inactive by the
validators sync, with its updated_at refreshed in both. -/
theorem sync_absent_key_fallback_amended (statuses : List ValidatorInfo)
    (batch : List JSString) (now : Nat) (edb : List ExitRow)
    (vdb : List ValidatorRow) :
    (∀ r ∈ edb, r.pubkey ∈ batch →
      r.pubkey ∉ (buildStatusMap statuses).map Prod.fst →
      { r with status := "unknown", updated_at := now } ∈
        applySyncChunkExit edb (buildStatusMap statuses) batch now) ∧
    (∀ r ∈ vdb, r.pubkey ∈ batch →
      r.pubkey ∉ (buildStatusMap statuses).map Prod.fst →
      { r with status := "inactive", updated_at := now } ∈
        applySyncChunkValidators vdb (buildStatusMap statuses) batch now) := by
  constructor
  · intro r hr hb habs
    unfold applySyncChunkExit
    rw [applyChunk_eq ExitRow.pubkey ExitRow.setSync
      (fun k => (objGet (buildStatusMap statuses) k).getD "unknown") now batch edb
      (fun _ _ _ => rfl) (fun _ _ _ _ _ => rfl)]
    have : (fun r : ExitRow => if r.pubkey ∈ batch then
        ExitRow.setSync ((objGet (buildStatusMap statuses) r.pubkey).getD "unknown") now r
      else r) r = { r with status := "unknown", updated_at := now } := by
      show (if r.pubkey ∈ batch then
        ExitRow.setSync ((objGet (buildStatusMap statuses) r.pubkey).getD "unknown") now r
        else r) = _
      rw [if_pos hb, objGet_eq_none_of_not_mem _ _ habs]
      rfl
    rw [← this]
    exact List.mem_map_of_mem _ hr
  · intro r hr hb habs
    unfold applySyncChunkValidators
    rw [applyChunk_eq ValidatorRow.pubkey ValidatorRow.setSync
      (fun k => (objGet (buildStatusMap statuses) k).getD "inactive") now batch vdb
      (fun _ _ _ => rfl) (fun _ _ _ _ _ => rfl)]
    have : (fun r : ValidatorRow => if r.pubkey ∈ batch then
        ValidatorRow.setSync ((objGet (buildStatusMap statuses) r.pubkey).getD "inactive") now r
      else r) r = { r with status := "inactive", updated_at := now } := by
      show (if r.pubkey ∈ batch then
        ValidatorRow.setSync ((objGet (buildStatusMap statuses) r.pubkey).getD "inactive") now r
        else r) = _
      rw [if_pos hb, objGet_eq_none_of_not_mem _ _ habs]
      rfl
    rw [← this]
    exact List.mem_map_of_mem _ hr

/-- A concrete validator row used by the C2 and C3 concrete statements. -/
def vRowA : ValidatorRow :=
  { pubkey := [48, 120, 97, 97]
    provider := "Lido"
    status := "pending"
    json_filename := none
    bucket_no := some "1"
    created_at := 0
    updated_at := 0 }

/-- Claim C2 (counterexample): the validators sync at a concrete chunk with
an empty oracle response sets the absent record's status to inactive, not to
unknown. -/
theorem sync_absent_key_fallback_counterexample :
    applySyncChunkValidators [vRowA] (buildStatusMap []) [[48, 120, 97, 97]] 7 =
      [{ vRowA with status := "inactive", updated_at := 7 }] ∧
    vRowA.pubkey ∈ ([[48, 120, 97, 97]] : List JSString) ∧
    vRowA.pubkey ∉ (buildStatusMap []).map Prod.fst ∧
    "inactive" ≠ "unknown" := by
  refine ⟨rfl, by decide, by decide, by decide⟩

theorem updateWhere_map_step (pk : α → JSString) (set : String → Nat → α → α)
    (statusFor : JSString → String) (now : Nat) (k : JSString)
    (ks : List JSString) (db : List α)
    (hpk : ∀ s t r, pk (set s t r) = pk r)
    (hset : ∀ s1 t1 s2 t2 r, set s2 t2 (set s1 t1 r) = set s2 t2 r) :
    (updateWhere pk set k (statusFor k) now db).map
        (fun r => if pk r ∈ ks then set (statusFor (pk r)) now r else r) =
      db.map (fun r => if pk r ∈ k :: ks then set (statusFor (pk r)) now r else r) := by
  unfold updateWhere
  rw [List.map_map]
  apply List.map_congr_left
  intro r hr
  simp only [Function.comp]
  by_cases h1 : pk r = k
  · rw [if_pos h1]
    by_cases h2 : pk (set (statusFor k) now r) ∈ ks
    · rw [if_pos h2, hpk] at *
      rw [hset]
      rw [h1] at h2 ⊢
      rw [if_pos (List.mem_cons_of_mem k h2)]
    · rw [if_neg h2]
      rw [hpk, h1] at h2
      rw [h1, if_pos (List.mem_cons_self k ks)]
  · rw [if_neg h1]
    by_cases h2 : pk r ∈ ks
    · rw [if_pos h2, if_pos (List.mem_cons_of_mem k h2)]
    · rw [if_neg h2, if_neg ?_]
      intro hm
      rcases List.mem_cons.mp hm with hm | hm
      · exact h1 hm
      · exact h2 hm

/-- One chunk's update transaction of the VALIDATORS sync with an explicit
storage-fault model, mirroring routes.js lines 628-665: `fault i` simulates
a failure of the i-th `stmt.run` of the chunk — that sync passes an error
callback which logs the failure and counts it, and the loop continues
(routes.js lines 639-646); `ffault` simulates a failure of `stmt.finalize`,
the only case in which the code issues ROLLBACK — otherwise COMMIT applies
every non-faulted update. (The exit sync's per-row faults behave
differently; see `applySyncChunkExitFaulty`.) -/
def applyChunkFaulty (pk : α → JSString) (set : String → Nat → α → α)
    (statusFor : JSString → String) (now : Nat) (fault : Nat → Bool)
    (ffault : Bool) (batch : List JSString) (db : List α) : List α :=
  if ffault then db
  else batch.enum.foldl
    (fun d p => if fault p.1 then d else updateWhere pk set p.2 (statusFor p.2) now d) db

theorem foldl_faulty_eq (pk : α → JSString) (set : String → Nat → α → α)
    (statusFor : JSString → String) (now : Nat) (fault : Nat → Bool)
    (pairs : List (Nat × JSString)) (db : List α)
    (hpk : ∀ s t r, pk (set s t r) = pk r)
    (hset : ∀ s1 t1 s2 t2 r, set s2 t2 (set s1 t1 r) = set s2 t2 r) :
    pairs.foldl
        (fun d p => if fault p.1 then d else updateWhere pk set p.2 (statusFor p.2) now d)
        db =
      db.map (fun r =>
        if pk r ∈ (pairs.filter (fun p => !fault p.1)).map Prod.snd
        then set (statusFor (pk r)) now r else r) := by
  induction pairs generalizing db with
  | nil => simp
  | cons q qs ih =>
    rw [List.foldl_cons]
    by_cases hf : fault q.1
    · rw [if_pos hf, ih db, List.filter_cons]
      simp only [hf, Bool.not_true, Bool.false_eq_true, if_false]
    · rw [if_neg hf, ih (updateWhere pk set q.2 (statusFor q.2) now db),
        List.filter_cons]
      simp only [hf, Bool.not_false, if_true, List.map_cons]
      exact updateWhere_map_step pk set statusFor now q.2 _ db hpk hset

/-- Embeds the `POST /api/sync-exit-statuses` chunk transaction (routes.js
lines 487-517) under the fault model. Unlike the validators sync, the exit
sync's `stmt.run(status, normalizedPubkey)` at routes.js line 499 passes NO
error callback: node-sqlite3 then emits a statement error as an `error`
event, and with no listener installed anywhere the process dies with the
transaction still open, so SQLite discards it — nothing of the chunk
persists and the run does not continue. A finalize fault (`ffault`) is
handled: ROLLBACK, and the outer try/catch lets the run continue. Only a
fault-free chunk reaches COMMIT. The result pairs the persisted rows with
whether the process survived the chunk. -/
def applySyncChunkExitFaulty (edb : List ExitRow) (m : List (JSString × String))
    (batch : List JSString) (now : Nat) (fault : Nat → Bool) (ffault : Bool) :
    List ExitRow × Bool :=
  if batch.enum.any (fun p => fault p.1) then (edb, false)
  else if ffault then (edb, true)
  else (applySyncChunkExit edb m batch now, true)

/-- Embeds the `POST /api/sync-statuses` chunk transaction under the fault model. -/
def applySyncChunkValidatorsFaulty (vdb : List ValidatorRow)
    (m : List (JSString × String)) (batch : List JSString) (now : Nat)
    (fault : Nat → Bool) (ffault : Bool) : List ValidatorRow :=
  applyChunkFaulty ValidatorRow.pubkey ValidatorRow.setSync
    (fun k => (objGet m k).getD "inactive") now fault ffault batch vdb

/-- Claim C3 (amended): a fault at statement finalization rolls the whole
chunk back and lets the run continue, in both syncs. A fault in an
individual row update splits the two syncs: the validators sync logs it and
the remaining rows of the chunk still commit — each record stays
individually consistent (old status with old updated_at, or mapped status
with the new updated_at, never a mix), but the chunk is not all-or-nothing
(see the counterexample); the exit sync passes no per-row error callback,
so the fault surfaces as an unhandled driver error event that kills the
process before COMMIT — nothing of that chunk persists, but the run does
not continue either. -/
theorem chunk_fault_isolation_amended (m : List (JSString × String))
    (batch : List JSString) (now : Nat) (fault : Nat → Bool)
    (edb : List ExitRow) (vdb : List ValidatorRow) :
    (batch.enum.any (fun p => fault p.1) = false →
      applySyncChunkExitFaulty edb m batch now fault true = (edb, true)) ∧
    applySyncChunkValidatorsFaulty vdb m batch now fault true = vdb ∧
    (batch.enum.any (fun p => fault p.1) = true →
      ∀ ff : Bool, applySyncChunkExitFaulty edb m batch now fault ff = (edb, false)) ∧
    (batch.enum.any (fun p => fault p.1) = false →
      applySyncChunkExitFaulty edb m batch now fault false =
        (applySyncChunkExit edb m batch now, true)) ∧
    (∀ i : Nat, ∀ r : ValidatorRow, vdb[i]? = some r →
      (applySyncChunkValidatorsFaulty vdb m batch now fault false)[i]? = some r ∨
      (applySyncChunkValidatorsFaulty vdb m batch now fault false)[i]? =
        some { r with status := (objGet m r.pubkey).getD "inactive",
                      updated_at := now }) := by
  refine ⟨?_, rfl, ?_, ?_, ?_⟩
  · intro hno
    unfold applySyncChunkExitFaulty
    rw [if_neg (by simp [hno]), if_pos rfl]
  · intro hyes ff
    unfold applySyncChunkExitFaulty
    rw [if_pos hyes]
  · intro hno
    unfold applySyncChunkExitFaulty
    rw [if_neg (by simp [hno]), if_neg (by simp)]
  · intro i r hi
    unfold applySyncChunkValidatorsFaulty applyChunkFaulty
    rw [if_neg (by simp)]
    rw [foldl_faulty_eq ValidatorRow.pubkey ValidatorRow.setSync
      (fun k => (objGet m k).getD "inactive") now fault batch.enum vdb
      (fun _ _ _ => rfl) (fun _ _ _ _ _ => rfl)]
    rw [List.getElem?_map, hi]
    by_cases hmem : r.pubkey ∈ (batch.enum.filter (fun p => !fault p.1)).map Prod.snd
    · right
      simp only [Option.map_some']
      rw [if_pos hmem]
      rfl
    · left
      simp only [Option.map_some']
      rw [if_neg hmem]

/-- A concrete exit row, used by the C1 counterexample. -/
def eRowA : ExitRow :=
  { id := 1
    batch_id := 1
    pubkey := [48, 120, 97, 97]
    status := "pending"
    created_at := 0
    updated_at := 0 }

/-- A second concrete validator row for the C3 counterexample. -/
def vRowB : ValidatorRow :=
  { pubkey := [48, 120, 98, 98]
    provider := "Lido"
    status := "pending"
    json_filename := none
    bucket_no := some "1"
    created_at := 0
    updated_at := 0 }

/-- Claim C3 (counterexample): in the validators sync — whose per-row error
callback (routes.js 639-646) logs the failure and lets the transaction
commit — with the oracle reporting both keys active and a storage fault on
the second row update only (finalize succeeds), the first row of the chunk
commits its new status and timestamp while the second keeps its old ones:
a fault occurred mid-chunk yet a record did not retain its old status and
updated_at, so the chunk's updates are not all-or-nothing. -/
theorem chunk_fault_isolation_counterexample :
    applySyncChunkValidatorsFaulty [vRowA, vRowB]
        (buildStatusMap
          [{ status := "active_ongoing", pubkey := [48, 120, 97, 97],
             effective_balance := 32, slashed := false },
           { status := "active_ongoing", pubkey := [48, 120, 98, 98],
             effective_balance := 32, slashed := false }])
        [[48, 120, 97, 97], [48, 120, 98, 98]] 5 (fun i => i == 1) false =
      [{ vRowA with status := "active", updated_at := 5 }, vRowB] ∧
    (fun i : Nat => i == 1) 1 = true ∧
    { vRowA with status := "active", updated_at := 5 } ≠ vRowA := by
  refine ⟨by decide, rfl, by decide⟩

/-- One reported grouping entry of the statistics endpoints: the three
category counts plus the grouping's total. -/
structure StatusTotals where
  total : Nat
  active : Nat
  exit_queue : Nat
  inactive : Nat
deriving DecidableEq

/-- Embeds `GET /api/statistics` `totals` (routes.js lines 725-740): COUNT(*) plus
one SUM(CASE ...) per status — pending rows are counted by none of the three
CASEs. -/
def statisticsTotals (vdb : List ValidatorRow) : StatusTotals :=
  { total := vdb.length
    active := vdb.countP (fun r => r.status == "active")
    exit_queue := vdb.countP (fun r => r.status == "exit_queue")
    inactive := vdb.countP (fun r => r.status == "inactive") }

/-- Embeds the `GROUP BY provider` rows (routes.js lines 689-704). -/
def providerRows (vdb : List ValidatorRow) (p : String) : List ValidatorRow :=
  vdb.filter (fun r => r.provider == p)

/-- Embeds `formatted[provider][status]` (routes.js lines 713-722): the count of one
(provider, status) group. -/
def byProviderCount (vdb : List ValidatorRow) (p s : String) : Nat :=
  (providerRows vdb p).countP (fun r => r.status == s)

/-- Embeds `formatted[provider].total`: it accumulates the counts of every status group
of the provider (routes.js line 720). -/
def byProviderTotal (vdb : List ValidatorRow) (p : String) : Nat :=
  (providerRows vdb p).length

/-- Embeds the `GROUP BY provider, bucket_no` rows with non-null bucket (routes.js
lines 757-776). -/
def bucketRows (vdb : List ValidatorRow) (p b : String) : List ValidatorRow :=
  vdb.filter (fun r => r.provider == p && r.bucket_no == some b)

/-- Embeds `byBucket[provider][bucketNo][status]` (routes.js lines 779-796). -/
def byBucketCount (vdb : List ValidatorRow) (p b s : String) : Nat :=
  (bucketRows vdb p b).countP (fun r => r.status == s)

/-- Embeds `byBucket[provider][bucketNo].total` (routes.js line 795). -/
def byBucketTotal (vdb : List ValidatorRow) (p b : String) : Nat :=
  (bucketRows vdb p b).length

/-- The CASE sums every `GET /api/exit-statistics` grouping uses (routes.js
lines 200-210, 216-228, 247-257, 278-289): the reported inactive count folds
pending in, and no CASE counts a status outside
active/exit_queue/inactive/pending (such as unknown). -/
def exitStatusTotalsOf (rs : List ExitRow) : StatusTotals :=
  { total := rs.length
    active := rs.countP (fun e => e.status == "active")
    exit_queue := rs.countP (fun e => e.status == "exit_queue")
    inactive := rs.countP (fun e => e.status == "inactive" || e.status == "pending") }

/-- Embeds the `GET /api/exit-statistics` overall totals. -/
def exitTotals (edb : List ExitRow) : StatusTotals := exitStatusTotalsOf edb

/-- The rows of one exit batch (GROUP BY b.id, routes.js lines 216-228). -/
def exitBatchRows (edb : List ExitRow) (bid : Nat) : List ExitRow :=
  edb.filter (fun e => e.batch_id == bid)

/-- Per-batch totals (routes.js lines 216-228). -/
def exitBatchTotals (edb : List ExitRow) (bid : Nat) : StatusTotals :=
  exitStatusTotalsOf (exitBatchRows edb bid)

/-- Embeds `LEFT JOIN validators v ON e.pubkey = v.pubkey`: pubkey is UNIQUE in
validators, so the join partner is the first (only) match. -/
def validatorFor (vdb : List ValidatorRow) (k : JSString) : Option ValidatorRow :=
  vdb.find? (fun v => v.pubkey == k)

/-- Embeds `COALESCE(v.provider, 'Unknown')` of the join partner (routes.js line
249). -/
def joinedProvider (vdb : List ValidatorRow) (k : JSString) : String :=
  match validatorFor vdb k with
  | some v => v.provider
  | none => "Unknown"

/-- One (batch, provider) group of `byBatchDetail.byProvider` (routes.js
lines 245-273). -/
def exitBatchProviderRows (vdb : List ValidatorRow) (edb : List ExitRow)
    (bid : Nat) (p : String) : List ExitRow :=
  edb.filter (fun e => e.batch_id == bid && joinedProvider vdb e.pubkey == p)

def exitBatchProviderTotals (vdb : List ValidatorRow) (edb : List ExitRow)
    (bid : Nat) (p : String) : StatusTotals :=
  exitStatusTotalsOf (exitBatchProviderRows vdb edb bid p)

/-- One (batch, provider, bucket) group of `byBatchDetail.byBucket`
(routes.js lines 276-308): requires a join partner with non-null provider
and bucket_no. -/
def exitBatchBucketRows (vdb : List ValidatorRow) (edb : List ExitRow)
    (bid : Nat) (p b : String) : List ExitRow :=
  edb.filter (fun e => e.batch_id == bid &&
    ((validatorFor vdb e.pubkey).any (fun v => v.provider == p && v.bucket_no == some b)))

def exitBatchBucketTotals (vdb : List ValidatorRow) (edb : List ExitRow)
    (bid : Nat) (p b : String) : StatusTotals :=
  exitStatusTotalsOf (exitBatchBucketRows vdb edb bid p b)

theorem countP_or_disjoint (l : List α) (p q : α → Bool)
    (h : ∀ a ∈ l, p a = true → q a = false) :
    l.countP (fun a => p a || q a) = l.countP p + l.countP q := by
  induction l with
  | nil => rfl
  | cons a t ih =>
    rw [List.countP_cons, List.countP_cons, List.countP_cons,
      ih (fun b hb => h b (List.mem_cons_of_mem a hb))]
    by_cases hp : p a = true
    · have hq := h a (List.mem_cons_self a t) hp
      simp [hp, hq]
      omega
    · simp only [Bool.not_eq_true] at hp
      simp [hp]
      omega

theorem countP_three_conservation (rs : List α) (p1 p2 p3 : α → Bool)
    (h12 : ∀ a ∈ rs, p1 a = true → p2 a = false)
    (h13 : ∀ a ∈ rs, p1 a = true → p3 a = false)
    (h23 : ∀ a ∈ rs, p2 a = true → p3 a = false) :
    rs.countP p1 + rs.countP p2 + rs.countP p3 ≤ rs.length ∧
    (rs.countP p1 + rs.countP p2 + rs.countP p3 = rs.length ↔
      ∀ a ∈ rs, p1 a = true ∨ p2 a = true ∨ p3 a = true) := by
  have e1 : rs.countP (fun a => p2 a || p3 a) = rs.countP p2 + rs.countP p3 :=
    countP_or_disjoint rs p2 p3 h23
  have e2 : rs.countP (fun a => p1 a || (p2 a || p3 a)) =
      rs.countP p1 + (rs.countP p2 + rs.countP p3) := by
    rw [← e1]
    apply countP_or_disjoint rs p1 _
    intro a ha h1
    show (p2 a || p3 a) = false
    rw [h12 a ha h1, h13 a ha h1]
    rfl
  have esum : rs.countP p1 + rs.countP p2 + rs.countP p3 =
      rs.countP (fun a => p1 a || (p2 a || p3 a)) := by
    rw [e2]
    omega
  constructor
  · rw [esum]
    exact List.countP_le_length _
  · rw [esum, List.countP_eq_length]
    constructor
    · intro hall a ha
      have := hall a ha
      simpa using this
    · intro hall a ha
      have := hall a ha
      simpa using this

theorem countP_four_conservation (rs : List α) (p1 p2 p3 p4 : α → Bool)
    (h12 : ∀ a ∈ rs, p1 a = true → p2 a = false)
    (h13 : ∀ a ∈ rs, p1 a = true → p3 a = false)
    (h14 : ∀ a ∈ rs, p1 a = true → p4 a = false)
    (h23 : ∀ a ∈ rs, p2 a = true → p3 a = false)
    (h24 : ∀ a ∈ rs, p2 a = true → p4 a = false)
    (h34 : ∀ a ∈ rs, p3 a = true → p4 a = false) :
    rs.countP p1 + rs.countP p2 + rs.countP p3 + rs.countP p4 ≤ rs.length ∧
    (rs.countP p1 + rs.countP p2 + rs.countP p3 + rs.countP p4 = rs.length ↔
      ∀ a ∈ rs, p1 a = true ∨ p2 a = true ∨ p3 a = true ∨ p4 a = true) := by
  have e34 : rs.countP (fun a => p3 a || p4 a) = rs.countP p3 + rs.countP p4 :=
    countP_or_disjoint rs p3 p4 h34
  have h2m : ∀ a ∈ rs, p2 a = true → (fun a => p3 a || p4 a) a = false := by
    intro a ha h2
    show (p3 a || p4 a) = false
    rw [h23 a ha h2, h24 a ha h2]
    rfl
  have h1m : ∀ a ∈ rs, p1 a = true → (fun a => p3 a || p4 a) a = false := by
    intro a ha h1
    show (p3 a || p4 a) = false
    rw [h13 a ha h1, h14 a ha h1]
    rfl
  obtain ⟨hle, hiff⟩ := countP_three_conservation rs p1 p2 (fun a => p3 a || p4 a)
    h12 h1m h2m
  rw [e34] at hle hiff
  constructor
  · omega
  · rw [show rs.countP p1 + rs.countP p2 + rs.countP p3 + rs.countP p4 =
      rs.countP p1 + rs.countP p2 + (rs.countP p3 + rs.countP p4) from by omega]
    rw [hiff]
    constructor
    · intro hall a ha
      rcases hall a ha with h | h | h
      · exact Or.inl h
      · exact Or.inr (Or.inl h)
      · rcases Bool.or_eq_true_iff.mp h with h | h
        · exact Or.inr (Or.inr (Or.inl h))
        · exact Or.inr (Or.inr (Or.inr h))
    · intro hall a ha
      rcases hall a ha with h | h | h | h
      · exact Or.inl h
      · exact Or.inr (Or.inl h)
      · exact Or.inr (Or.inr (Bool.or_eq_true_iff.mpr (Or.inl h)))
      · exact Or.inr (Or.inr (Bool.or_eq_true_iff.mpr (Or.inr h)))

theorem status_beq_disjoint {γ : Type} (f : γ → String) {s1 s2 : String}
    (hne : s1 ≠ s2) : ∀ a, (f a == s1) = true → (f a == s2) = false := by
  intro a h
  rw [beq_iff_eq] at h
  rw [h]
  exact beq_false_of_ne hne

theorem validator_conservation (rs : List ValidatorRow) :
    rs.countP (fun r => r.status == "active") +
      rs.countP (fun r => r.status == "exit_queue") +
      rs.countP (fun r => r.status == "inactive") ≤ rs.length ∧
    (rs.countP (fun r => r.status == "active") +
      rs.countP (fun r => r.status == "exit_queue") +
      rs.countP (fun r => r.status == "inactive") = rs.length ↔
      ∀ r ∈ rs, r.status = "active" ∨ r.status = "exit_queue" ∨
        r.status = "inactive") := by
  obtain ⟨h1, h2⟩ := countP_three_conservation rs
    (fun r => r.status == "active") (fun r => r.status == "exit_queue")
    (fun r => r.status == "inactive")
    (fun a _ => status_beq_disjoint ValidatorRow.status (by decide) a)
    (fun a _ => status_beq_disjoint ValidatorRow.status (by decide) a)
    (fun a _ => status_beq_disjoint ValidatorRow.status (by decide) a)
  refine ⟨h1, ?_⟩
  rw [h2]
  constructor
  · intro H r hr
    have := H r hr
    simpa using this
  · intro H r hr
    have := H r hr
    simpa using this

theorem validator_conservation_pending (rs : List ValidatorRow) :
    rs.countP (fun r => r.status == "active") +
      rs.countP (fun r => r.status == "exit_queue") +
      rs.countP (fun r => r.status == "inactive") +
      rs.countP (fun r => r.status == "pending") ≤ rs.length ∧
    (rs.countP (fun r => r.status == "active") +
      rs.countP (fun r => r.status == "exit_queue") +
      rs.countP (fun r => r.status == "inactive") +
      rs.countP (fun r => r.status == "pending") = rs.length ↔
      ∀ r ∈ rs, r.status = "active" ∨ r.status = "exit_queue" ∨
        r.status = "inactive" ∨ r.status = "pending") := by
  obtain ⟨h1, h2⟩ := countP_four_conservation rs
    (fun r => r.status == "active") (fun r => r.status == "exit_queue")
    (fun r => r.status == "inactive") (fun r => r.status == "pending")
    (fun a _ => status_beq_disjoint ValidatorRow.status (by decide) a)
    (fun a _ => status_beq_disjoint ValidatorRow.status (by decide) a)
    (fun a _ => status_beq_disjoint ValidatorRow.status (by decide) a)
    (fun a _ => status_beq_disjoint ValidatorRow.status (by decide) a)
    (fun a _ => status_beq_disjoint ValidatorRow.status (by decide) a)
    (fun a _ => status_beq_disjoint ValidatorRow.status (by decide) a)
  refine ⟨h1, ?_⟩
  rw [h2]
  constructor
  · intro H r hr
    have := H r hr
    simpa using this
  · intro H r hr
    have := H r hr
    simpa using this

theorem exit_conservation (rs : List ExitRow) :
    (exitStatusTotalsOf rs).active + (exitStatusTotalsOf rs).exit_queue +
      (exitStatusTotalsOf rs).inactive ≤ (exitStatusTotalsOf rs).total ∧
    ((exitStatusTotalsOf rs).active + (exitStatusTotalsOf rs).exit_queue +
      (exitStatusTotalsOf rs).inactive = (exitStatusTotalsOf rs).total ↔
      ∀ e ∈ rs, e.status = "active" ∨ e.status = "exit_queue" ∨
        e.status = "inactive" ∨ e.status = "pending") := by
  simp only [exitStatusTotalsOf]
  have hd13 : ∀ a ∈ rs, (a.status == "active") = true →
      (a.status == "inactive" || a.status == "pending") = false := by
    intro a _ h
    rw [beq_iff_eq] at h
    rw [h]
    decide
  have hd23 : ∀ a ∈ rs, (a.status == "exit_queue") = true →
      (a.status == "inactive" || a.status == "pending") = false := by
    intro a _ h
    rw [beq_iff_eq] at h
    rw [h]
    decide
  obtain ⟨h1, h2⟩ := countP_three_conservation rs
    (fun e => e.status == "active") (fun e => e.status == "exit_queue")
    (fun e => e.status == "inactive" || e.status == "pending")
    (fun a _ => status_beq_disjoint ExitRow.status (by decide) a)
    hd13 hd23
  refine ⟨h1, ?_⟩
  rw [h2]
  constructor
  · intro H e he
    have := H e he
    simpa using this
  · intro H e he
    have := H e he
    simpa using this

/-- Claim C1 (amended): in every grouping the reported category counts are
disjoint (their sum never exceeds the grouping's total), and the sum equals
the total exactly when every record of the grouping carries one of the
statuses that grouping counts. The validators `totals` grouping counts only
active/exit_queue/inactive, so a pending (or unknown) validator breaks its
conservation; the per-provider and per-bucket validator groupings also
report pending; every exit grouping folds pending into inactive but counts
unknown records in no category. -/
theorem aggregation_conservation_amended (vdb : List ValidatorRow)
    (edb : List ExitRow) :
    ((statisticsTotals vdb).active + (statisticsTotals vdb).exit_queue +
        (statisticsTotals vdb).inactive ≤ (statisticsTotals vdb).total ∧
      ((statisticsTotals vdb).active + (statisticsTotals vdb).exit_queue +
          (statisticsTotals vdb).inactive = (statisticsTotals vdb).total ↔
        ∀ r ∈ vdb, r.status = "active" ∨ r.status = "exit_queue" ∨
          r.status = "inactive")) ∧
    (∀ p : String,
      byProviderCount vdb p "active" + byProviderCount vdb p "exit_queue" +
          byProviderCount vdb p "inactive" + byProviderCount vdb p "pending" ≤
        byProviderTotal vdb p ∧
      (byProviderCount vdb p "active" + byProviderCount vdb p "exit_queue" +
          byProviderCount vdb p "inactive" + byProviderCount vdb p "pending" =
          byProviderTotal vdb p ↔
        ∀ r ∈ providerRows vdb p, r.status = "active" ∨ r.status = "exit_queue" ∨
          r.status = "inactive" ∨ r.status = "pending")) ∧
    (∀ p b : String,
      byBucketCount vdb p b "active" + byBucketCount vdb p b "exit_queue" +
          byBucketCount vdb p b "inactive" + byBucketCount vdb p b "pending" ≤
        byBucketTotal vdb p b ∧
      (byBucketCount vdb p b "active" + byBucketCount vdb p b "exit_queue" +
          byBucketCount vdb p b "inactive" + byBucketCount vdb p b "pending" =
          byBucketTotal vdb p b ↔
        ∀ r ∈ bucketRows vdb p b, r.status = "active" ∨ r.status = "exit_queue" ∨
          r.status = "inactive" ∨ r.status = "pending")) ∧
    ((exitTotals edb).active + (exitTotals edb).exit_queue +
        (exitTotals edb).inactive ≤ (exitTotals edb).total ∧
      ((exitTotals edb).active + (exitTotals edb).exit_queue +
          (exitTotals edb).inactive = (exitTotals edb).total ↔
        ∀ e ∈ edb, e.status = "active" ∨ e.status = "exit_queue" ∨
          e.status = "inactive" ∨ e.status = "pending")) ∧
    (∀ bid : Nat,
      (exitBatchTotals edb bid).active + (exitBatchTotals edb bid).exit_queue +
          (exitBatchTotals edb bid).inactive ≤ (exitBatchTotals edb bid).total ∧
      ((exitBatchTotals edb bid).active + (exitBatchTotals edb bid).exit_queue +
          (exitBatchTotals edb bid).inactive = (exitBatchTotals edb bid).total ↔
        ∀ e ∈ exitBatchRows edb bid, e.status = "active" ∨
          e.status = "exit_queue" ∨ e.status = "inactive" ∨ e.status = "pending")) ∧
    (∀ bid : Nat, ∀ p : String,
      (exitBatchProviderTotals vdb edb bid p).active +
          (exitBatchProviderTotals vdb edb bid p).exit_queue +
          (exitBatchProviderTotals vdb edb bid p).inactive ≤
        (exitBatchProviderTotals vdb edb bid p).total ∧
      ((exitBatchProviderTotals vdb edb bid p).active +
          (exitBatchProviderTotals vdb edb bid p).exit_queue +
          (exitBatchProviderTotals vdb edb bid p).inactive =
          (exitBatchProviderTotals vdb edb bid p).total ↔
        ∀ e ∈ exitBatchProviderRows vdb edb bid p, e.status = "active" ∨
          e.status = "exit_queue" ∨ e.status = "inactive" ∨ e.status = "pending")) ∧
    (∀ bid : Nat, ∀ p b : String,
      (exitBatchBucketTotals vdb edb bid p b).active +
          (exitBatchBucketTotals vdb edb bid p b).exit_queue +
          (exitBatchBucketTotals vdb edb bid p b).inactive ≤
        (exitBatchBucketTotals vdb edb bid p b).total ∧
      ((exitBatchBucketTotals vdb edb bid p b).active +
          (exitBatchBucketTotals vdb edb bid p b).exit_queue +
          (exitBatchBucketTotals vdb edb bid p b).inactive =
          (exitBatchBucketTotals vdb edb bid p b).total ↔
        ∀ e ∈ exitBatchBucketRows vdb edb bid p b, e.status = "active" ∨
          e.status = "exit_queue" ∨ e.status = "inactive" ∨ e.status = "pending")) := by
  refine ⟨?_, ?_, ?_, ?_, ?_, ?_, ?_⟩
  · simp only [statisticsTotals]
    exact validator_conservation vdb
  · intro p
    simp only [byProviderCount, byProviderTotal]
    exact validator_conservation_pending (providerRows vdb p)
  · intro p b
    simp only [byBucketCount, byBucketTotal]
    exact validator_conservation_pending (bucketRows vdb p b)
  · simp only [exitTotals]
    exact exit_conservation edb
  · intro bid
    simp only [exitBatchTotals]
    exact exit_conservation (exitBatchRows edb bid)
  · intro bid p
    simp only [exitBatchProviderTotals]
    exact exit_conservation (exitBatchProviderRows vdb edb bid p)
  · intro bid p b
    simp only [exitBatchBucketTotals]
    exact exit_conservation (exitBatchBucketRows vdb edb bid p b)

/-- Claim C1 (counterexample): a freshly ingested validator has status
pending, which the `/api/statistics` totals count in no category (total 1,
category sum 0); and an exit record synced while absent from the oracle
response has status unknown, which every `/api/exit-statistics` CASE also
misses (total 1, category sum 0). -/
theorem aggregation_conservation_counterexample :
    (statisticsTotals (uploadCsvIngest [] [csvRowAb] 5)).total = 1 ∧
    (statisticsTotals (uploadCsvIngest [] [csvRowAb] 5)).active +
      (statisticsTotals (uploadCsvIngest [] [csvRowAb] 5)).exit_queue +
      (statisticsTotals (uploadCsvIngest [] [csvRowAb] 5)).inactive = 0 ∧
    (exitTotals (applySyncChunkExit [eRowA] [] [[48, 120, 97, 97]] 7)).total = 1 ∧
    (exitTotals (applySyncChunkExit [eRowA] [] [[48, 120, 97, 97]] 7)).active +
      (exitTotals (applySyncChunkExit [eRowA] [] [[48, 120, 97, 97]] 7)).exit_queue +
      (exitTotals (applySyncChunkExit [eRowA] [] [[48, 120, 97, 97]] 7)).inactive = 0 := by
  refine ⟨by decide, by decide, by decide, by decide⟩
